import Mathlib

/-!
Verification of the model-layer logic of the HR management web application
(Django apps `core`, `employees`, `attendance`, `payroll`, `accommodation`,
`tracking`, `reports`).

Shallow-embedding conventions:
* `DecimalField` values are modelled by `ℚ` (Python `Decimal` arithmetic on
  the literals appearing in this code base is exact).
* nullable columns are modelled by `Option`.
* the set of database rows an operation touches is modelled by an explicit
  list that the operation transforms; `QuerySet.update` becomes `List.map`,
  `objects.create` becomes an append.
* Python truthiness tests (`if not self.center_latitude`, `or` defaults)
  are modelled by explicit `truthy…` helpers so that the `None`/zero
  behaviour of the source is preserved.
* a raised exception is modelled by an `Except` error value (or an explicit
  outcome flag where the source catches the exception itself).
-/

namespace HR

/-! ## core/models.py : SoftDeleteModel -/

/-- A row of a soft-deletable entity (`core/models.py`, `SoftDeleteModel`):
the three deletion bookkeeping columns plus an abstract payload standing for
all the other columns of the concrete model. -/
structure SoftDeleteRecord (α : Type) where
  payload : α
  is_deleted : Bool
  deleted_at : Option ℕ
  deleted_by : Option ℕ
  deriving Repr, DecidableEq

variable {α : Type}

/-- `SoftDeleteModel.soft_delete` (`core/models.py` lines 54-58): set the
flag, stamp the time, record the actor, save. -/
def SoftDeleteRecord.soft_delete (now : ℕ) (user : Option ℕ)
    (self : SoftDeleteRecord α) : SoftDeleteRecord α :=
  { self with is_deleted := true, deleted_at := some now, deleted_by := user }

/-- `SoftDeleteModel.restore` (`core/models.py` lines 60-64). -/
def SoftDeleteRecord.restore (self : SoftDeleteRecord α) : SoftDeleteRecord α :=
  { self with is_deleted := false, deleted_at := none, deleted_by := none }

/-- A record whose deletion fields are in the never-deleted default state
(`is_deleted = False`, `deleted_at = deleted_by = NULL`). -/
def SoftDeleteRecord.mk' (payload : α) : SoftDeleteRecord α :=
  { payload := payload, is_deleted := false, deleted_at := none, deleted_by := none }

/-! ## payroll/models.py : TaxDeduction.calculate_tax -/

/-- The `tax_regime` column of `TaxDeduction` (`'old'` / `'new'`). -/
inductive TaxRegime
  | old
  | new
  deriving DecidableEq, Repr

/-- The columns of `payroll.models.TaxDeduction` that `calculate_tax`
reads or writes.  `tax_deductions` is the list of values of the JSON
deduction breakdown. -/
structure TaxDeduction where
  tax_regime : TaxRegime
  gross_income : ℚ
  taxable_income : ℚ
  tax_deductions : List ℚ
  total_tax : ℚ
  tax_paid_to_date : ℚ
  remaining_tax : ℚ
  monthly_deduction : ℚ
  deriving DecidableEq, Repr

/-- `TaxDeduction.calculate_tax` (`payroll/models.py` lines 583-650),
parameterised by `timezone.now()`'s month and year and by the first year of
the record's `financial_year` string. -/
def TaxDeduction.calculate_tax (current_month current_year fy_start_year : ℕ)
    (self : TaxDeduction) : TaxDeduction :=
  let gross := self.gross_income
  let deductions := self.tax_deductions.sum
  let taxable := max (gross - deductions) 0
  let tax : ℚ :=
    if self.tax_regime = TaxRegime.old then
      if taxable ≤ 250000 then 0
      else if taxable ≤ 500000 then (taxable - 250000) * (5 / 100)
      else if taxable ≤ 1000000 then 12500 + (taxable - 500000) * (20 / 100)
      else 112500 + (taxable - 1000000) * (30 / 100)
    else
      if taxable ≤ 300000 then 0
      else if taxable ≤ 600000 then (taxable - 300000) * (5 / 100)
      else if taxable ≤ 900000 then 15000 + (taxable - 600000) * (10 / 100)
      else if taxable ≤ 1200000 then 45000 + (taxable - 900000) * (15 / 100)
      else if taxable ≤ 1500000 then 90000 + (taxable - 1200000) * (20 / 100)
      else 150000 + (taxable - 1500000) * (30 / 100)
  let tax := tax + tax * (4 / 100)
  let remaining := max (tax - self.tax_paid_to_date) 0
  let remaining_months : ℤ :=
    if current_year = fy_start_year then 12 - (current_month : ℤ) + 3
    else 3 - (current_month : ℤ)
  let remaining_months := max remaining_months 1
  { self with
      taxable_income := taxable
      total_tax := tax
      remaining_tax := remaining
      monthly_deduction := remaining / (remaining_months : ℚ) }

/-! ## payroll/models.py : Salary.save -/

/-- The columns of `payroll.models.Salary` relevant to `Salary.save`:
the primary key, the owning employee's id and the `is_current` flag. -/
structure Salary where
  pk : ℕ
  employee : ℕ
  is_current : Bool
  deriving DecidableEq, Repr

/-- The `update(is_current=False)` applied by `Salary.save` to
`Salary.objects.filter(employee=self.employee, is_current=True)
.exclude(pk=self.pk)`. -/
def Salary.clearOtherCurrent (db : List Salary) (self : Salary) : List Salary :=
  db.map fun r =>
    if r.employee == self.employee && r.is_current && !(r.pk == self.pk) then
      { r with is_current := false }
    else r

/-- `super().save()` on a row whose primary key is already fixed: replace
the row with that key if present, insert the row otherwise. -/
def Salary.upsert (db : List Salary) (self : Salary) : List Salary :=
  if db.any (fun r => r.pk == self.pk) then
    db.map fun r => if r.pk == self.pk then self else r
  else db ++ [self]

/-- `Salary.save` (`payroll/models.py` lines 171-179): if the saved record
is marked current, first clear `is_current` on every other salary record of
the same employee, then perform the ordinary save. -/
def Salary.save (db : List Salary) (self : Salary) : List Salary :=
  Salary.upsert (if self.is_current then Salary.clearOtherCurrent db self else db) self

/-- At most one current salary record per employee: any two current records
of the same employee are the same row. -/
def atMostOneCurrent (db : List Salary) : Prop :=
  ∀ r1 ∈ db, ∀ r2 ∈ db,
    r1.employee = r2.employee → r1.is_current = true → r2.is_current = true →
      r1.pk = r2.pk

/-! ## accommodation/models.py : MaintenanceRequest -/

/-- `accommodation.models.MaintenanceRequestStatus`. -/
inductive MaintenanceRequestStatus
  | pending
  | in_progress
  | completed
  | cancelled
  | rejected
  deriving DecidableEq, Repr

/-- `accommodation.models.AccommodationStatus`. -/
inductive AccommodationStatus
  | available
  | occupied
  | under_maintenance
  | reserved
  | decommissioned
  deriving DecidableEq, Repr

/-- Python truthiness of an optional string (`None` and `""` are falsy). -/
def truthyStr (o : Option String) : Bool :=
  match o with
  | none => false
  | some s => !(s == "")

/-- The columns of `accommodation.models.MaintenanceRequest` that its
transition methods read or write. -/
structure MaintenanceRequest where
  status : MaintenanceRequestStatus
  assigned_to : Option ℕ
  scheduled_date : Option ℕ
  completed_date : Option ℕ
  resolution_notes : Option String
  actual_cost : Option ℚ
  images_after : List String
  feedback : Option String
  rating : Option ℕ
  deriving DecidableEq, Repr

/-- `MaintenanceRequest.assign` (`accommodation/models.py` lines 418-424):
record the assignee and the optional scheduled date and set the status to
`in_progress`, with no check of the prior status. -/
def MaintenanceRequest.assign (self : MaintenanceRequest) (employee : ℕ)
    (scheduled_date : Option ℕ) : MaintenanceRequest :=
  { self with
      assigned_to := some employee
      scheduled_date :=
        match scheduled_date with
        | some d => some d
        | none => self.scheduled_date
      status := MaintenanceRequestStatus.in_progress }

/-- The row-level effect of `MaintenanceRequest.complete`
(`accommodation/models.py` lines 426-440), with no check of the prior
status.  (The method additionally recomputes the accommodation's status;
that effect is modelled by `completeAccommodationStatus` below.) -/
def MaintenanceRequest.complete (self : MaintenanceRequest)
    (resolution_notes : Option String) (actual_cost : Option ℚ)
    (images_after : Option (List String)) (today : ℕ) : MaintenanceRequest :=
  { self with
      status := MaintenanceRequestStatus.completed
      completed_date := some today
      resolution_notes :=
        if truthyStr resolution_notes then resolution_notes else self.resolution_notes
      actual_cost := if actual_cost.isSome then actual_cost else self.actual_cost
      images_after :=
        match images_after with
        | some l => if l.isEmpty then self.images_after else l
        | none => self.images_after }

/-- The accommodation-status side effect of `MaintenanceRequest.complete`
(`accommodation/models.py` lines 442-457), with the two database queries it
performs (are other pending/in-progress requests left? does the
accommodation have a current allocation?) passed in as booleans. -/
def completeAccommodationStatus (accommodation_status : AccommodationStatus)
    (other_pending_requests has_current_allocation : Bool) : AccommodationStatus :=
  if accommodation_status = AccommodationStatus.under_maintenance then
    if other_pending_requests then accommodation_status
    else if has_current_allocation then AccommodationStatus.occupied
    else AccommodationStatus.available
  else accommodation_status

/-- `MaintenanceRequest.cancel` (`accommodation/models.py` lines 459-462),
with no check of the prior status. -/
def MaintenanceRequest.cancel (self : MaintenanceRequest) : MaintenanceRequest :=
  { self with status := MaintenanceRequestStatus.cancelled }

/-- `MaintenanceRequest.reject` (`accommodation/models.py` lines 464-468),
with no check of the prior status. -/
def MaintenanceRequest.reject (self : MaintenanceRequest) (reason : String) :
    MaintenanceRequest :=
  { self with
      status := MaintenanceRequestStatus.rejected
      resolution_notes := some reason }

/-- `MaintenanceRequest.provide_feedback` (`accommodation/models.py` lines
470-477): the only transition method that guards on the current status. -/
def MaintenanceRequest.provide_feedback (self : MaintenanceRequest)
    (feedback : String) (rating : ℕ) : Except String MaintenanceRequest :=
  if self.status ≠ MaintenanceRequestStatus.completed then
    Except.error "Feedback can only be provided for completed requests"
  else
    Except.ok { self with feedback := some feedback, rating := some rating }

/-! ## attendance/models.py : Leave -/

/-- `attendance.models.LeaveStatus`. -/
inductive LeaveStatus
  | pending
  | approved
  | rejected
  | cancelled
  deriving DecidableEq, Repr

/-- `attendance.models.AttendanceStatus`. -/
inductive AttendanceStatus
  | present
  | absent
  | late
  | half_day
  | on_leave
  | holiday
  | weekend
  deriving DecidableEq, Repr

/-- The columns of an `attendance.models.Attendance` row that
`Leave.cancel` / `Leave._update_attendance_records` touch.  Dates are
modelled as absolute day numbers. -/
structure Attendance where
  employee : ℕ
  date : ℕ
  status : AttendanceStatus
  notes : Option String
  deriving DecidableEq, Repr

/-- The columns of `attendance.models.Leave` that `approve` / `cancel`
read or write. -/
structure Leave where
  employee : ℕ
  start_date : ℕ
  end_date : ℕ
  status : LeaveStatus
  leave_type_display : String
  approver : Option ℕ
  deriving DecidableEq, Repr

/-- `Leave._update_attendance_records` (`attendance/models.py` lines
309-335): walk the leave period day by day and, skipping weekends and
holidays, create or update the attendance record of that day to
`on_leave`.  The weekend test and the holiday table are passed in. -/
def Leave.updateAttendanceRecords (self : Leave) (att : List Attendance)
    (is_weekend : ℕ → Bool) (holidays : List ℕ) : List Attendance :=
  (List.range (self.end_date + 1 - self.start_date)).foldl
    (fun acc i =>
      let d := self.start_date + i
      if !(is_weekend d) && !(holidays.contains d) then
        if acc.any (fun a => a.employee == self.employee && a.date == d) then
          acc.map fun a =>
            if a.employee == self.employee && a.date == d then
              { a with
                  status := AttendanceStatus.on_leave
                  notes := some ("On " ++ self.leave_type_display) }
            else a
        else
          acc ++ [{ employee := self.employee
                    date := d
                    status := AttendanceStatus.on_leave
                    notes := some ("On " ++ self.leave_type_display) }]
      else acc)
    att

/-- `Leave.approve` (`attendance/models.py` lines 278-286): set the status
to approved, record the approver, save, then update the attendance records
of the leave period. -/
def Leave.approve (self : Leave) (approver : ℕ) (att : List Attendance)
    (is_weekend : ℕ → Bool) (holidays : List ℕ) : Leave × List Attendance :=
  let self1 := { self with status := LeaveStatus.approved, approver := some approver }
  (self1, Leave.updateAttendanceRecords self1 att is_weekend holidays)

/-- `Leave.cancel` (`attendance/models.py` lines 296-307): set the status
to cancelled and save; then, *testing the just-reassigned status*, revert
on-leave attendance records of the period to absent if the status is
approved.  The test is performed after `self.status` has been overwritten
with `CANCELLED`, exactly as in the source. -/
def Leave.cancel (self : Leave) (att : List Attendance) : Leave × List Attendance :=
  let self1 := { self with status := LeaveStatus.cancelled }
  if self1.status = LeaveStatus.approved then
    (self1,
      att.map fun a =>
        if a.employee == self1.employee &&
            self1.start_date ≤ a.date && a.date ≤ self1.end_date &&
            a.status == AttendanceStatus.on_leave then
          { a with status := AttendanceStatus.absent }
        else a)
  else (self1, att)

/-! ## accommodation/models.py : AccommodationAllocation -/

/-- The columns of `accommodation.models.AccommodationAllocation` that
`save` / `end_allocation` read or write. -/
structure AccommodationAllocation where
  pk : ℕ
  accommodation : ℕ
  is_active : Bool
  start_date : ℕ
  end_date : Option ℕ
  check_out_notes : Option String
  deriving DecidableEq, Repr

/-- The accommodation table joined with the allocation table: the status of
every accommodation (by id) and the list of allocation rows. -/
structure AccommodationState where
  status : ℕ → AccommodationStatus
  allocs : List AccommodationAllocation

/-- `Accommodation.mark_occupied` (`accommodation/models.py` lines 195-198). -/
def markOccupied (st : AccommodationState) (acc : ℕ) : AccommodationState :=
  { st with status := fun x => if x == acc then AccommodationStatus.occupied else st.status x }

/-- `Accommodation.mark_available` (`accommodation/models.py` lines 199-202). -/
def markAvailable (st : AccommodationState) (acc : ℕ) : AccommodationState :=
  { st with status := fun x => if x == acc then AccommodationStatus.available else st.status x }

/-- `AccommodationAllocation.save` (`accommodation/models.py` lines
283-293) for a new row (`self.pk is None` at entry, so `is_new` is true;
the inserted row is given the fresh primary key carried by `self`): insert
the row, and if it is active mark the accommodation occupied.  (The
`occupants.add(primary_occupant)` step touches only the many-to-many
occupants table and is not modelled.)  No other allocation row is read or
written. -/
def AccommodationAllocation.saveNew (st : AccommodationState)
    (self : AccommodationAllocation) : AccommodationState :=
  let st1 := { st with allocs := st.allocs ++ [self] }
  if self.is_active then markOccupied st1 self.accommodation else st1

/-- The field updates `end_allocation` applies to its own row before
saving (`accommodation/models.py` lines 297-306), expressed as the row
transformation the save performs on the allocation table. -/
def endUpdateRow (self : AccommodationAllocation) (end_date : ℕ)
    (check_out_notes : Option String) (r : AccommodationAllocation) :
    AccommodationAllocation :=
  if r.pk == self.pk then
    { r with
        end_date := some end_date
        is_active := false
        check_out_notes :=
          if truthyStr check_out_notes then check_out_notes
          else r.check_out_notes }
  else r

/-- `AccommodationAllocation.end_allocation` (`accommodation/models.py`
lines 295-316): stamp the end date, clear `is_active`, save; then, if no
*other* active allocation of the same accommodation remains, mark the
accommodation available. -/
def AccommodationAllocation.end_allocation (st : AccommodationState)
    (self : AccommodationAllocation) (end_date : ℕ)
    (check_out_notes : Option String) : AccommodationState :=
  let st1 := { st with allocs := st.allocs.map (endUpdateRow self end_date check_out_notes) }
  let other_active := st1.allocs.any fun q =>
    q.accommodation == self.accommodation && q.is_active && !(q.pk == self.pk)
  if other_active then st1 else markAvailable st1 self.accommodation

/-- At most one active allocation per accommodation: any two active
allocation rows of the same accommodation are the same row. -/
def atMostOneActiveAlloc (st : AccommodationState) : Bool :=
  st.allocs.all fun a1 =>
    st.allocs.all fun a2 =>
      !(a1.accommodation == a2.accommodation) || !a1.is_active || !a2.is_active ||
        a1.pk == a2.pk

/-! ## payroll/models.py : PayrollProcessing.process_payroll -/

/-- The columns of `employees.models.Employee` that the payroll run's
eligibility filter reads (`status` is collapsed to the boolean
`status == 'active'`). -/
structure Employee where
  id : ℕ
  is_deleted : Bool
  active : Bool
  date_joined : ℕ
  deriving DecidableEq, Repr

/-- The columns of a `payroll.models.Salary` row that the payroll run
reads.  `salary_components` stands for the `salary_structure` JSON. -/
structure SalaryRow where
  employee : ℕ
  is_current : Bool
  effective_from : ℕ
  gross_salary : ℚ
  net_salary : ℚ
  salary_components : List (String × ℚ)
  deriving DecidableEq, Repr

/-- A `payroll.models.SalarySlip` row as created by the payroll run. -/
structure SalarySlip where
  employee : ℕ
  gross_amount : ℚ
  net_amount : ℚ
  payment_status : String
  salary_components : List (String × ℚ)
  deriving DecidableEq, Repr

/-- `payroll.models.PayrollStatus`. -/
inductive PayrollStatus
  | draft
  | processing
  | completed
  | approved
  | paid
  | cancelled
  deriving DecidableEq, Repr

/-- The columns of `payroll.models.PayrollProcessing` that
`process_payroll` reads or writes. -/
structure PayrollProcessing where
  status : PayrollStatus
  total_employees : ℕ
  total_amount : ℚ
  end_date : ℕ
  deriving DecidableEq, Repr

/-- The database state a payroll run touches. -/
structure PayrollDB where
  payroll : PayrollProcessing
  slips : List SalarySlip
  employees : List Employee
  salaries : List SalaryRow
  deriving DecidableEq, Repr

/-- The outcome of a call to `process_payroll`: normal return, the
`ValueError` raised for a non-draft payroll, or the re-raised unexpected
exception of the `except` branch. -/
inductive PayrollOutcome
  | ok
  | valueError
  | reraised
  deriving DecidableEq, Repr

/-- `Salary.objects.get(employee=…, is_current=True, effective_from__lte=…)`
as performed per employee by the payroll run (`payroll/models.py` lines
291-296); `None` models `Salary.DoesNotExist`. -/
def getCurrentSalary (salaries : List SalaryRow) (employee end_date : ℕ) :
    Option SalaryRow :=
  salaries.find? fun s =>
    s.employee == employee && s.is_current && decide (s.effective_from ≤ end_date)

/-- The slip `SalarySlip.objects.create(...)` builds for one employee
(`payroll/models.py` lines 299-307). -/
def mkSlip (employee : ℕ) (sal : SalaryRow) : SalarySlip :=
  { employee := employee
    gross_amount := sal.gross_salary
    net_amount := sal.net_salary
    payment_status := "pending"
    salary_components := sal.salary_components }

/-- The per-employee loop of `process_payroll` (`payroll/models.py` lines
289-317).  `fail_at = some k` injects an unexpected exception while the
employee at position `k` of the eligible list is being processed (before
its slip is persisted); the first component of the result records whether
the exception was raised, the second the accumulated `total_amount`, the
third the slip table (each created slip is persisted immediately). -/
def processLoop (fail_at : Option ℕ) (idx : ℕ) (salaries : List SalaryRow)
    (end_date : ℕ) (emps : List Employee) (total : ℚ)
    (slips : List SalarySlip) : Bool × ℚ × List SalarySlip :=
  match emps with
  | [] => (false, total, slips)
  | e :: rest =>
    if fail_at == some idx then (true, total, slips)
    else
      match getCurrentSalary salaries e.id end_date with
      | some sal =>
        processLoop fail_at (idx + 1) salaries end_date rest
          (total + sal.net_salary) (slips ++ [mkSlip e.id sal])
      | none =>
        processLoop fail_at (idx + 1) salaries end_date rest total slips

/-- The eligible-employee query of the payroll run
(`payroll/models.py` lines 279-283). -/
def eligibleEmployees (employees : List Employee) (end_date : ℕ) : List Employee :=
  employees.filter fun e =>
    !e.is_deleted && e.active && decide (e.date_joined ≤ end_date)

/-- The slips the loop persists for a list of employees (skipping those
without a current salary), used to state what survives a failed run. -/
def slipsFor (salaries : List SalaryRow) (end_date : ℕ)
    (emps : List Employee) : List SalarySlip :=
  emps.filterMap fun e => (getCurrentSalary salaries e.id end_date).map (mkSlip e.id)

/-- `PayrollProcessing.process_payroll` (`payroll/models.py` lines
268-330).  A non-draft payroll raises `ValueError` before touching
anything.  Otherwise the status is saved as `processing`, the in-memory
record's `total_employees` is set to the eligible count, and the loop runs;
on success the totals and the `completed` status are saved, while on an
unexpected exception the in-memory record (eligible count included) is
saved back with status `draft` and the exception is re-raised. -/
def process_payroll (fail_at : Option ℕ) (db : PayrollDB) :
    PayrollOutcome × PayrollDB :=
  let self := db.payroll
  if self.status ≠ PayrollStatus.draft then (PayrollOutcome.valueError, db)
  else
    let self1 := { self with status := PayrollStatus.processing }
    let db1 := { db with payroll := self1 }
    let eligible := eligibleEmployees db1.employees self1.end_date
    let self2 := { self1 with total_employees := eligible.length }
    match processLoop fail_at 0 db1.salaries self1.end_date eligible 0 db1.slips with
    | (false, total, slips) =>
      let self3 := { self2 with total_amount := total, status := PayrollStatus.completed }
      (PayrollOutcome.ok, { db1 with payroll := self3, slips := slips })
    | (true, _, slips) =>
      let self3 := { self2 with status := PayrollStatus.draft }
      (PayrollOutcome.reraised, { db1 with payroll := self3, slips := slips })

/-! ## tracking/models.py : GeofenceArea.contains_point -/

/-- `tracking.models.GeofenceType`. -/
inductive GeofenceType
  | circle
  | polygon
  | rectangle
  deriving DecidableEq, Repr

/-- The columns of `tracking.models.GeofenceArea` that `contains_point`
reads.  `center_latitude` / `center_longitude` are nullable decimal
columns, `radius` a nullable positive-integer column, `coordinates` a JSON
list of numeric pairs (each pair `(latitude, longitude)`). -/
structure GeofenceArea where
  geofence_type : GeofenceType
  center_latitude : Option ℚ
  center_longitude : Option ℚ
  radius : Option ℕ
  coordinates : List (ℚ × ℚ)
  is_active : Bool

/-- Python truthiness of a nullable decimal (`None` and `0` are falsy). -/
def truthyQ (o : Option ℚ) : Bool :=
  match o with
  | none => false
  | some x => decide (x ≠ 0)

/-- Python truthiness of a nullable integer (`None` and `0` are falsy). -/
def truthyN (o : Option ℕ) : Bool :=
  match o with
  | none => false
  | some n => decide (n ≠ 0)

/-- The haversine great-circle distance computed by the circle branch of
`contains_point` (`tracking/models.py` lines 318-334): inputs in degrees,
earth radius 6 371 000 m. -/
noncomputable def haversineDistance (lat1 lon1 lat2 lon2 : ℝ) : ℝ :=
  let lat1_rad := lat1 * Real.pi / 180
  let lon1_rad := lon1 * Real.pi / 180
  let lat2_rad := lat2 * Real.pi / 180
  let lon2_rad := lon2 * Real.pi / 180
  let dlon := lon2_rad - lon1_rad
  let dlat := lat2_rad - lat1_rad
  let a := Real.sin (dlat / 2) ^ 2 +
    Real.cos lat1_rad * Real.cos lat2_rad * Real.sin (dlon / 2) ^ 2
  let c := 2 * Real.arcsin (Real.sqrt a)
  c * 6371000

/-- The `xinters` crossing ordinate assigned by the ray-casting loop when
the current edge is non-horizontal (`tracking/models.py` line 357). -/
def xintersAt (point p1 p2 : ℚ × ℚ) : ℚ :=
  (point.2 - p1.2) * (p2.1 - p1.1) / (p2.2 - p1.2) + p1.1

/-- One iteration of the ray-casting loop (`tracking/models.py` lines
351-360) on the state `(inside, xinters)`, where `xinters = none` models
the variable not having been assigned yet; reading it unassigned is the
`NameError` modelled by `Except.error ()`. -/
def rayStep (point : ℚ × ℚ) (st : Bool × Option ℚ) (e : (ℚ × ℚ) × (ℚ × ℚ)) :
    Except Unit (Bool × Option ℚ) :=
  let p1 := e.1
  let p2 := e.2
  let inside := st.1
  if point.2 > min p1.2 p2.2 then
    if point.2 ≤ max p1.2 p2.2 then
      if point.1 ≤ max p1.1 p2.1 then
        let xin := if p1.2 ≠ p2.2 then some (xintersAt point p1 p2) else st.2
        if p1.1 = p2.1 then Except.ok (!inside, xin)
        else
          match xin with
          | none => Except.error ()
          | some x => Except.ok (if point.1 ≤ x then !inside else inside, xin)
      else Except.ok (inside, st.2)
    else Except.ok (inside, st.2)
  else Except.ok (inside, st.2)

/-- The sequence of `(p1, p2)` pairs the loop `for i in range(n + 1)`
examines: `p1` starts at `polygon[0]`, `p2` is `polygon[i % n]`, and `p1`
becomes the previous `p2` at the end of each iteration. -/
def edgeList (polygon : List (ℚ × ℚ)) : List ((ℚ × ℚ) × (ℚ × ℚ)) :=
  match polygon with
  | [] => []
  | p0 :: _ => (p0 :: polygon).zip (polygon ++ [p0])

/-- The full ray-casting computation of the polygon branch of
`contains_point` (`tracking/models.py` lines 338-362): starting from
`inside = False` with `xinters` unassigned, run the loop over all `n + 1`
iterations; `Except.error ()` models an uncaught `NameError` (and, for an
empty polygon, the `IndexError` of `polygon[0]`, which the emptiness guard
of `contains_point` makes unreachable). -/
def rayCasting (polygon : List (ℚ × ℚ)) (point : ℚ × ℚ) : Except Unit Bool :=
  match polygon with
  | [] => Except.error ()
  | _ :: _ =>
    ((edgeList polygon).foldlM (rayStep point) (false, none)).map Prod.fst

/-- Whether one iteration of the loop toggles `inside`: the three range
guards hold and the edge is vertical or the point is left of the crossing
ordinate.  (For a horizontal edge the first two guards are contradictory,
so the junk value `xintersAt` takes there is irrelevant.) -/
def crossesEdge (point : ℚ × ℚ) (e : (ℚ × ℚ) × (ℚ × ℚ)) : Bool :=
  let p1 := e.1
  let p2 := e.2
  decide (point.2 > min p1.2 p2.2) && decide (point.2 ≤ max p1.2 p2.2) &&
    decide (point.1 ≤ max p1.1 p2.1) &&
    (decide (p1.1 = p2.1) || decide (point.1 ≤ xintersAt point p1 p2))

/-- The ray-casting crossing count of a point against the polygon's edge
sequence. -/
def crossingCount (polygon : List (ℚ × ℚ)) (point : ℚ × ℚ) : ℕ :=
  (edgeList polygon).countP fun e => crossesEdge point e

open scoped Classical in
/-- `GeofenceArea.contains_point` (`tracking/models.py` lines 309-376).
The result is `Except.ok` of the returned boolean; `Except.error ()` is an
uncaught exception. -/
noncomputable def GeofenceArea.contains_point (self : GeofenceArea)
    (latitude longitude : ℚ) : Except Unit Bool :=
  if self.is_active = false then Except.ok false
  else
    match self.geofence_type with
    | GeofenceType.circle =>
      if !(truthyQ self.center_latitude && truthyQ self.center_longitude &&
            truthyN self.radius) then
        Except.ok false
      else
        let clat := self.center_latitude.getD 0
        let clon := self.center_longitude.getD 0
        let r := self.radius.getD 0
        Except.ok
          (if haversineDistance (latitude : ℝ) (longitude : ℝ) (clat : ℝ) (clon : ℝ) ≤
              (r : ℝ) then true else false)
    | GeofenceType.polygon =>
      if self.coordinates.isEmpty then Except.ok false
      else rayCasting self.coordinates ((latitude : ℚ), (longitude : ℚ))
    | GeofenceType.rectangle =>
      if self.coordinates.length < 2 then Except.ok false
      else
        let top_left := self.coordinates.getD 0 (0, 0)
        let bottom_right := self.coordinates.getD 1 (0, 0)
        Except.ok
          (decide (top_left.1 ≤ latitude) && decide (latitude ≤ bottom_right.1) &&
            decide (top_left.2 ≤ longitude) && decide (longitude ≤ bottom_right.2))

/-! ## reports/models.py : ReportSchedule.calculate_next_run

A small proleptic-Gregorian calendar, enough to model `datetime.date`,
`datetime.combine`, `timedelta(days=…)`, `date.weekday()` and
`calendar.monthrange`. -/

/-- A calendar date (`datetime.date`). -/
structure Date where
  year : ℤ
  month : ℕ
  day : ℕ
  deriving DecidableEq, Repr

/-- A time of day to minute precision (`datetime.time`; the code never
sets seconds on computed run times). -/
structure TimeOfDay where
  hour : ℕ
  minute : ℕ
  deriving DecidableEq, Repr

/-- A naive datetime to minute precision. -/
structure DateTime where
  year : ℤ
  month : ℕ
  day : ℕ
  hour : ℕ
  minute : ℕ
  deriving DecidableEq, Repr

/-- `datetime.date()` of a datetime. -/
def DateTime.date (dt : DateTime) : Date :=
  { year := dt.year, month := dt.month, day := dt.day }

/-- `datetime.combine(date, time)`. -/
def combine (d : Date) (t : TimeOfDay) : DateTime :=
  { year := d.year, month := d.month, day := d.day, hour := t.hour, minute := t.minute }

/-- Gregorian leap-year test. -/
def isLeapYear (y : ℤ) : Bool :=
  (y % 4 == 0 && y % 100 != 0) || (y % 400 == 0)

/-- `calendar.monthrange(year, month)[1]`: the number of days of a month. -/
def monthrange (year : ℤ) (month : ℕ) : ℕ :=
  if month == 2 then (if isLeapYear year then 29 else 28)
  else if month == 4 || month == 6 || month == 9 || month == 11 then 30
  else 31

/-- The day after a date. -/
def nextDay (d : Date) : Date :=
  if d.day < monthrange d.year d.month then { d with day := d.day + 1 }
  else if d.month < 12 then { year := d.year, month := d.month + 1, day := 1 }
  else { year := d.year + 1, month := 1, day := 1 }

/-- `date + timedelta(days=n)` for `n ≥ 0`. -/
def addDays (d : Date) : ℕ → Date
  | 0 => d
  | n + 1 => addDays (nextDay d) n

/-- Days since 1970-01-01 of a date (standard civil-calendar algorithm,
using floored division). -/
def daysFromCivil (d : Date) : ℤ :=
  let y : ℤ := if d.month ≤ 2 then d.year - 1 else d.year
  let m : ℤ := (d.month : ℤ)
  let era : ℤ := (if 0 ≤ y then y else y - 399).fdiv 400
  let yoe : ℤ := y - era * 400
  let doy : ℤ := (153 * (if 2 < m then m - 3 else m + 9) + 2).fdiv 5 + (d.day : ℤ) - 1
  let doe : ℤ := yoe * 365 + yoe.fdiv 4 - yoe.fdiv 100 + doy
  era * 146097 + doe - 719468

/-- `date.weekday()`: Monday = 0 … Sunday = 6 (1970-01-01 was a
Thursday). -/
def weekday (d : Date) : ℤ :=
  (daysFromCivil d + 3) % 7

/-- Strict ordering of dates (`>` on `datetime.date`). -/
def dateLtb (a b : Date) : Bool :=
  decide (a.year < b.year) ||
    (a.year == b.year &&
      (decide (a.month < b.month) || (a.month == b.month && decide (a.day < b.day))))

/-- Strict ordering of naive datetimes (`<` on `datetime.datetime`). -/
def dtLtb (a b : DateTime) : Bool :=
  dateLtb a.date b.date ||
    (a.date == b.date &&
      (decide (a.hour < b.hour) || (a.hour == b.hour && decide (a.minute < b.minute))))

/-- `reports.models.ReportFrequency`. -/
inductive ReportFrequency
  | daily
  | weekly
  | monthly
  | quarterly
  | yearly
  | once
  deriving DecidableEq, Repr

/-- The columns of `reports.models.ReportSchedule` that
`calculate_next_run` reads or writes.  `day_of_week` is the 0-6 weekday of
weekly schedules (nullable in the schema; the weekly branch dereferences
it, so it is modelled as the plain number the branch uses). -/
structure ReportSchedule where
  frequency : ReportFrequency
  start_date : Date
  end_date : Option Date
  time_of_day : TimeOfDay
  day_of_week : ℕ
  day_of_month : Option ℕ
  month_of_year : Option ℕ
  is_active : Bool
  last_run : Option DateTime
  next_run : Option DateTime
  deriving DecidableEq, Repr

/-- Python's `a or b` default idiom on a nullable positive integer
(`None` and `0` fall back to `b`). -/
def pyOr (o : Option ℕ) (fallback : ℕ) : ℕ :=
  match o with
  | none => fallback
  | some v => if v == 0 then fallback else v

/-- The candidate next-run datetime the subsequent-runs branch of
`calculate_next_run` computes per frequency (`reports/models.py` lines
445-523); meaningless for `once`, which never reaches this computation. -/
def baseDatetime (s : ReportSchedule) (lr : DateTime) : DateTime :=
  match s.frequency with
  | ReportFrequency.daily => combine (addDays lr.date 1) s.time_of_day
  | ReportFrequency.weekly =>
    let days_ahead : ℤ := (s.day_of_week : ℤ) - weekday lr.date
    let days_ahead := if days_ahead ≤ 0 then days_ahead + 7 else days_ahead
    combine (addDays lr.date days_ahead.toNat) s.time_of_day
  | ReportFrequency.monthly =>
    let next_month := lr.month + 1
    let next_year := if 12 < next_month then lr.year + 1 else lr.year
    let next_month := if 12 < next_month then 1 else next_month
    let last_day := monthrange next_year next_month
    let day := min (pyOr s.day_of_month lr.day) last_day
    { year := next_year, month := next_month, day := day,
      hour := s.time_of_day.hour, minute := s.time_of_day.minute }
  | ReportFrequency.quarterly =>
    let next_month := lr.month + 3
    let next_year := if 12 < next_month then lr.year + 1 else lr.year
    let next_month := if 12 < next_month then next_month - 12 else next_month
    let last_day := monthrange next_year next_month
    let day := min (pyOr s.day_of_month lr.day) last_day
    { year := next_year, month := next_month, day := day,
      hour := s.time_of_day.hour, minute := s.time_of_day.minute }
  | ReportFrequency.yearly =>
    let next_year := lr.year + 1
    let month := pyOr s.month_of_year lr.month
    let last_day := monthrange next_year month
    let day := min (pyOr s.day_of_month lr.day) last_day
    { year := next_year, month := month, day := day,
      hour := s.time_of_day.hour, minute := s.time_of_day.minute }
  | ReportFrequency.once => lr

/-- The trailing end-date check of `calculate_next_run`
(`reports/models.py` lines 531-537): past the optional end date the
schedule is deactivated with no next run, otherwise `next_run` becomes the
computed datetime. -/
def applyEndCheck (s : ReportSchedule) (base : DateTime) : ReportSchedule :=
  match s.end_date with
  | some ed =>
    if dateLtb ed base.date then { s with next_run := none, is_active := false }
    else { s with next_run := some base }
  | none => { s with next_run := some base }

/-- The subsequent-runs branch of `calculate_next_run`
(`reports/models.py` lines 443-537), entered when `last_run` is set. -/
def calcFromLastRun (s : ReportSchedule) (lr : DateTime) : ReportSchedule :=
  if s.frequency = ReportFrequency.once then
    { s with next_run := none, is_active := false }
  else applyEndCheck s (baseDatetime s lr)

/-- `ReportSchedule.calculate_next_run` (`reports/models.py` lines
414-537), parameterised by `timezone.now()`.  When `last_run` is unset the
first-run branch runs: for a past `start_date` a daily schedule is aligned
on today/tomorrow, any other frequency stores the start datetime as
`last_run` and re-enters the subsequent-runs branch. -/
def calculate_next_run (now : DateTime) (s : ReportSchedule) : ReportSchedule :=
  match s.last_run with
  | some lr => calcFromLastRun s lr
  | none =>
    let base := combine s.start_date s.time_of_day
    if dtLtb base now then
      if s.frequency = ReportFrequency.daily then
        let base := combine now.date s.time_of_day
        let base := if dtLtb base now then combine (addDays base.date 1) s.time_of_day else base
        applyEndCheck s base
      else
        calcFromLastRun { s with last_run := some base } base
    else applyEndCheck s base

/-! ## Specification-side predicates and concrete fixtures -/

/-- The behaviour the spec ascribes to the tail of `calculate_next_run`
for a computed candidate datetime `base`: past the optional end date the
schedule is deactivated with no next run, otherwise `next_run` becomes
`base` and the active flag is untouched. -/
def nextRunMatches (s : ReportSchedule) (base : DateTime) (r : ReportSchedule) : Prop :=
  (∀ ed, s.end_date = some ed → dateLtb ed base.date = true →
    r.next_run = none ∧ r.is_active = false) ∧
  ((∀ ed, s.end_date = some ed → dateLtb ed base.date = false) →
    r.next_run = some base ∧ r.is_active = s.is_active)

/-- Fixture: an active circle geofence centred on the equator
(`center_latitude = 0`), all three circle columns non-null. -/
def equatorFence : GeofenceArea :=
  { geofence_type := GeofenceType.circle
    center_latitude := some 0
    center_longitude := some 10
    radius := some 1000
    coordinates := []
    is_active := true }

/-- Fixture: an active circle geofence with nonzero centre coordinates. -/
def circleFence : GeofenceArea :=
  { geofence_type := GeofenceType.circle
    center_latitude := some 1
    center_longitude := some 2
    radius := some 5
    coordinates := []
    is_active := true }

/-- Fixture: an active polygon geofence on the unit square. -/
def squareFence : GeofenceArea :=
  { geofence_type := GeofenceType.polygon
    center_latitude := none
    center_longitude := none
    radius := none
    coordinates := [(0, 0), (0, 4), (4, 4), (4, 0)]
    is_active := true }

/-- Fixture: a draft payroll over two active employees who both have a
current salary. -/
def payrollFixture : PayrollDB :=
  { payroll := { status := PayrollStatus.draft, total_employees := 0,
                 total_amount := 0, end_date := 100 }
    slips := []
    employees := [⟨1, false, true, 0⟩, ⟨2, false, true, 0⟩]
    salaries := [⟨1, true, 0, 1000, 900, []⟩, ⟨2, true, 0, 2000, 1800, []⟩] }

/-- Fixture: an accommodation state with a single active allocation of
accommodation 5. -/
def oneAllocState : AccommodationState :=
  { status := fun _ => AccommodationStatus.occupied
    allocs := [⟨1, 5, true, 0, none, none⟩] }

/-- Fixture: an active daily report schedule whose last run was
2026-01-15 10:00 and whose reports are generated at 09:00. -/
def dailySchedule : ReportSchedule :=
  { frequency := ReportFrequency.daily
    start_date := ⟨2026, 1, 1⟩
    end_date := none
    time_of_day := ⟨9, 0⟩
    day_of_week := 0
    day_of_month := none
    month_of_year := none
    is_active := true
    last_run := some ⟨2026, 1, 15, 10, 0⟩
    next_run := none }

/-! ## Theorems -/

/-- Claim C7: `soft_delete(user)` sets `is_deleted` with the deletion time
and actor, the record is kept (the operations are total transformations of
the row), `restore` after `soft_delete` leaves the deletion fields exactly
as on a never-deleted record, and neither operation changes any other
field (the payload). -/
theorem soft_delete_restore_spec (r : SoftDeleteRecord α) (now : ℕ) (user : Option ℕ) :
    (r.soft_delete now user).is_deleted = true ∧
    (r.soft_delete now user).deleted_at = some now ∧
    (r.soft_delete now user).deleted_by = user ∧
    (r.soft_delete now user).payload = r.payload ∧
    ((r.soft_delete now user).restore = SoftDeleteRecord.mk' r.payload) ∧
    r.restore.payload = r.payload ∧
    r.restore.is_deleted = false ∧
    r.restore.deleted_at = none ∧
    r.restore.deleted_by = none :=
  ⟨rfl, rfl, rfl, rfl, rfl, rfl, rfl, rfl, rfl⟩

/-- Claim C9: `Leave.cancel` sets the status to cancelled and returns the
attendance table unchanged — for every prior status, in particular for a
previously approved leave (whose on-leave attendance records therefore
persist), because the revert branch tests the status after it has been
overwritten with `CANCELLED`. -/
theorem leave_cancel_spec (lv : Leave) (att : List Attendance) (approver : ℕ)
    (is_weekend : ℕ → Bool) (holidays : List ℕ) :
    (Leave.cancel lv att).1 = { lv with status := LeaveStatus.cancelled } ∧
    (Leave.cancel lv att).2 = att ∧
    (Leave.cancel { lv with status := LeaveStatus.approved } att).2 = att ∧
    (Leave.cancel (Leave.approve lv approver att is_weekend holidays).1
        (Leave.approve lv approver att is_weekend holidays).2).2 =
      (Leave.approve lv approver att is_weekend holidays).2 :=
  ⟨rfl, rfl, rfl, rfl⟩

/-- Claim C8: every `MaintenanceRequest` transition method except
`provide_feedback` assigns its target status with no check of the prior
status — so the pending→in_progress→completed path and conflicting
transitions (e.g. completing a cancelled request) are equally permitted —
and `provide_feedback` errors exactly on non-completed requests. -/
theorem maintenance_transitions_spec (self : MaintenanceRequest) (employee : ℕ)
    (scheduled_date : Option ℕ) (notes : Option String) (cost : Option ℚ)
    (imgs : Option (List String)) (today : ℕ) (reason feedback : String)
    (rating : ℕ) :
    (self.assign employee scheduled_date).status = MaintenanceRequestStatus.in_progress ∧
    (self.assign employee scheduled_date).assigned_to = some employee ∧
    (self.complete notes cost imgs today).status = MaintenanceRequestStatus.completed ∧
    (self.complete notes cost imgs today).completed_date = some today ∧
    self.cancel.status = MaintenanceRequestStatus.cancelled ∧
    (self.reject reason).status = MaintenanceRequestStatus.rejected ∧
    (self.cancel.complete notes cost imgs today).status =
      MaintenanceRequestStatus.completed ∧
    ((∃ msg, self.provide_feedback feedback rating = Except.error msg) ↔
      self.status ≠ MaintenanceRequestStatus.completed) ∧
    (self.status = MaintenanceRequestStatus.completed →
      self.provide_feedback feedback rating =
        Except.ok { self with feedback := some feedback, rating := some rating }) := by
  refine ⟨rfl, rfl, rfl, rfl, rfl, rfl, rfl, ?_, ?_⟩
  · by_cases h : self.status = MaintenanceRequestStatus.completed <;>
      simp [MaintenanceRequest.provide_feedback, h]
  · intro h
    simp [MaintenanceRequest.provide_feedback, h]

/-- Witness for claim C8 at a concrete completed request. -/
theorem maintenance_transitions_spec_witness :
    ({ status := MaintenanceRequestStatus.completed, assigned_to := none,
       scheduled_date := none, completed_date := some 3, resolution_notes := none,
       actual_cost := none, images_after := [], feedback := none,
       rating := none } : MaintenanceRequest).provide_feedback "fine" 5 =
      Except.ok { status := MaintenanceRequestStatus.completed, assigned_to := none,
                  scheduled_date := none, completed_date := some 3,
                  resolution_notes := none, actual_cost := none, images_after := [],
                  feedback := some "fine", rating := some 5 } :=
  (maintenance_transitions_spec _ 0 none none none none 0 "" "fine" 5).2.2.2.2.2.2.2.2 rfl

/-- Claim C2: `calculate_tax` sets `taxable_income` to
`max(gross_income − Σ tax_deductions, 0)`, computes the slab tax of the
claimed old/new-regime brackets, adds a 4 % cess to obtain `total_tax`,
and sets `remaining_tax` to `max(total_tax − tax_paid_to_date, 0)`. -/
theorem calculate_tax_spec (self : TaxDeduction)
    (current_month current_year fy_start_year : ℕ) (taxable slab : ℚ)
    (htaxable : taxable = max (self.gross_income - self.tax_deductions.sum) 0)
    (hslab : slab =
      (if self.tax_regime = TaxRegime.old then
        if taxable ≤ 250000 then 0
        else if taxable ≤ 500000 then (taxable - 250000) * 5 / 100
        else if taxable ≤ 1000000 then 12500 + (taxable - 500000) * 20 / 100
        else 112500 + (taxable - 1000000) * 30 / 100
      else
        if taxable ≤ 300000 then 0
        else if taxable ≤ 600000 then (taxable - 300000) * 5 / 100
        else if taxable ≤ 900000 then 15000 + (taxable - 600000) * 10 / 100
        else if taxable ≤ 1200000 then 45000 + (taxable - 900000) * 15 / 100
        else if taxable ≤ 1500000 then 90000 + (taxable - 1200000) * 20 / 100
        else 150000 + (taxable - 1500000) * 30 / 100)) :
    (self.calculate_tax current_month current_year fy_start_year).taxable_income =
      taxable ∧
    (self.calculate_tax current_month current_year fy_start_year).total_tax =
      slab + slab * 4 / 100 ∧
    (self.calculate_tax current_month current_year fy_start_year).remaining_tax =
      max ((self.calculate_tax current_month current_year fy_start_year).total_tax -
        self.tax_paid_to_date) 0 := by
  subst hslab
  subst htaxable
  refine ⟨rfl, ?_, rfl⟩
  simp only [TaxDeduction.calculate_tax]
  split_ifs <;> ring

/-- Witness for claim C2: old regime, gross 800000, one 100000 deduction,
10000 already paid. -/
theorem calculate_tax_spec_witness :
    (700000 : ℚ) = max ((800000 : ℚ) - [(100000 : ℚ)].sum) 0 ∧
    (({ tax_regime := TaxRegime.old, gross_income := 800000, taxable_income := 0,
        tax_deductions := [100000], total_tax := 0, tax_paid_to_date := 10000,
        remaining_tax := 0, monthly_deduction := 0 } : TaxDeduction).calculate_tax
          5 2025 2025).total_tax = 52500 + 52500 * 4 / 100 := by
  have h := calculate_tax_spec
    { tax_regime := TaxRegime.old, gross_income := 800000, taxable_income := 0,
      tax_deductions := [100000], total_tax := 0, tax_paid_to_date := 10000,
      remaining_tax := 0, monthly_deduction := 0 }
    5 2025 2025 700000 52500 (by norm_num) (by norm_num)
  exact ⟨by norm_num, h.2.1⟩

/-- Any member of `Salary.upsert l s` is either `s` itself or a member of
`l` whose primary key differs from `s.pk`. -/
theorem mem_upsert (l : List Salary) (s r : Salary) (hr : r ∈ Salary.upsert l s) :
    r = s ∨ (r ∈ l ∧ r.pk ≠ s.pk) := by
  by_cases hany : l.any (fun x => x.pk == s.pk) = true
  · unfold Salary.upsert at hr
    rw [if_pos hany] at hr
    rcases List.mem_map.mp hr with ⟨x, hx, rfl⟩
    by_cases hpk : x.pk = s.pk
    · left
      simp [hpk]
    · right
      refine ⟨?_, ?_⟩ <;> simp [hpk, hx]
  · unfold Salary.upsert at hr
    rw [if_neg hany] at hr
    rcases List.mem_append.mp hr with h | h
    · right
      refine ⟨h, fun hpk => hany (List.any_eq_true.mpr ⟨r, h, by simp [hpk]⟩)⟩
    · left
      simpa using h
/-- A member of `Salary.clearOtherCurrent db s` that is still current was
already in `db`, and if its key differs from `s.pk` it cannot belong to
`s`'s employee (it would have been cleared). -/
theorem mem_clearOtherCurrent (db : List Salary) (s r : Salary)
    (hr : r ∈ Salary.clearOtherCurrent db s) (hc : r.is_current = true) :
    r ∈ db ∧ (r.pk ≠ s.pk → r.employee ≠ s.employee) := by
  unfold Salary.clearOtherCurrent at hr
  rcases List.mem_map.mp hr with ⟨x, hx, rfl⟩
  by_cases hcond : (x.employee == s.employee && x.is_current && !(x.pk == s.pk)) = true
  · rw [if_pos hcond] at hc
    simp at hc
  · rw [if_neg hcond] at hc ⊢
    refine ⟨hx, fun hpk hemp => hcond ?_⟩
    simp [hemp, hc, hpk]

/-- A still-current member of `Salary.save db s` is either the saved row
`s` or an untouched row of `db` with a different key which, when `s` is
current, belongs to a different employee. -/
theorem mem_salarySave_current (db : List Salary) (s r : Salary)
    (hr : r ∈ Salary.save db s) (hc : r.is_current = true) :
    r = s ∨ (r ∈ db ∧ r.pk ≠ s.pk ∧ (s.is_current = true → r.employee ≠ s.employee)) := by
  unfold Salary.save at hr
  by_cases hcur : s.is_current = true
  · rw [if_pos hcur] at hr
    rcases mem_upsert _ _ _ hr with rfl | ⟨hmem, hpk⟩
    · exact Or.inl rfl
    · have h2 := mem_clearOtherCurrent db s r hmem hc
      exact Or.inr ⟨h2.1, hpk, fun _ => h2.2 hpk⟩
  · rw [if_neg hcur] at hr
    rcases mem_upsert _ _ _ hr with rfl | ⟨hmem, hpk⟩
    · exact Or.inl rfl
    · exact Or.inr ⟨hmem, hpk, fun hcc => absurd hcc hcur⟩

/-- Claim C4: `Salary.save` preserves at-most-one-current per employee;
saving a record marked current leaves every *other* record of the same
employee non-current; saving a record not marked current leaves every
other record untouched; and the saved record itself is in the table. -/
theorem salary_save_spec (db : List Salary) (s : Salary) :
    (atMostOneCurrent db → atMostOneCurrent (Salary.save db s)) ∧
    (s.is_current = true →
      ∀ r ∈ Salary.save db s, r.pk ≠ s.pk → r.employee = s.employee →
        r.is_current = false) ∧
    (s.is_current = false → ∀ r ∈ db, r.pk ≠ s.pk → r ∈ Salary.save db s) ∧
    s ∈ Salary.save db s := by
  refine ⟨?_, ?_, ?_, ?_⟩
  · intro hinv r1 h1 r2 h2 he hc1 hc2
    rcases mem_salarySave_current db s r1 h1 hc1 with h1eq | ⟨hm1, hp1, hne1⟩
    · rcases mem_salarySave_current db s r2 h2 hc2 with h2eq | ⟨hm2, hp2, hne2⟩
      · rw [h1eq, h2eq]
      · have hcs : s.is_current = true := by rw [← h1eq]; exact hc1
        have hee : r2.employee = s.employee := by rw [← h1eq]; exact he.symm
        exact absurd hee (hne2 hcs)
    · rcases mem_salarySave_current db s r2 h2 hc2 with h2eq | ⟨hm2, hp2, hne2⟩
      · have hcs : s.is_current = true := by rw [← h2eq]; exact hc2
        have hee : r1.employee = s.employee := by rw [h2eq] at he; exact he
        exact absurd hee (hne1 hcs)
      · exact hinv r1 hm1 r2 hm2 he hc1 hc2
  · intro hcur r hr hpk hempl
    cases hrc : r.is_current with
    | false => rfl
    | true =>
      rcases mem_salarySave_current db s r hr hrc with heq | ⟨_, _, hne⟩
      · exact absurd (by rw [heq]) hpk
      · exact absurd hempl (hne hcur)
  · intro hcur r hmem hpk
    unfold Salary.save
    rw [if_neg (by simp [hcur])]
    unfold Salary.upsert
    by_cases hany : db.any (fun x => x.pk == s.pk) = true
    · rw [if_pos hany]
      exact List.mem_map.mpr ⟨r, hmem, by simp [hpk]⟩
    · rw [if_neg hany]
      exact List.mem_append_left _ hmem
  · unfold Salary.save Salary.upsert
    by_cases hany :
        (if s.is_current then Salary.clearOtherCurrent db s else db).any
          (fun x => x.pk == s.pk) = true
    · rw [if_pos hany]
      rcases List.any_eq_true.mp hany with ⟨x, hx, hxpk⟩
      exact List.mem_map.mpr ⟨x, hx, by simp_all⟩
    · rw [if_neg hany]
      exact List.mem_append_right _ (by simp)

/-- A one-row salary table trivially has at most one current record per
employee. -/
theorem atMostOneCurrent_singleton (r : Salary) : atMostOneCurrent [r] := by
  intro r1 h1 r2 h2 _ _ _
  rw [List.mem_singleton] at h1 h2
  rw [h1, h2]

/-- Witness for claim C4: saving a second current salary for employee 10
keeps the table at one current record, and the saved row is present. -/
theorem salary_save_spec_witness :
    atMostOneCurrent [(⟨1, 10, true⟩ : Salary)] ∧
    atMostOneCurrent (Salary.save [⟨1, 10, true⟩] ⟨2, 10, true⟩) ∧
    (⟨2, 10, true⟩ : Salary) ∈ Salary.save [⟨1, 10, true⟩] ⟨2, 10, true⟩ :=
  ⟨atMostOneCurrent_singleton _,
    (salary_save_spec [⟨1, 10, true⟩] ⟨2, 10, true⟩).1 (atMostOneCurrent_singleton _),
    (salary_save_spec [⟨1, 10, true⟩] ⟨2, 10, true⟩).2.2.2⟩

/-- Claim C3 counterexample: a state with one active allocation of
accommodation 5 satisfies at-most-one-active, and saving a second new
active allocation of the same accommodation violates it — the save
operation does not enforce the invariant.  -/
theorem allocation_invariant_cex :
    atMostOneActiveAlloc oneAllocState = true ∧
    atMostOneActiveAlloc
      (AccommodationAllocation.saveNew oneAllocState ⟨2, 5, true, 0, none, none⟩) =
        false := by
  exact ⟨rfl, rfl⟩

/-- Claim C3 (amended): saving a new allocation only appends the row (it
deactivates nothing), a new active allocation marks the accommodation
occupied, an inactive one changes no status; `end_allocation` deactivates
and end-dates the row, and ending the last active allocation of an
accommodation marks it available. -/
theorem allocation_ops_amended (st : AccommodationState)
    (a self : AccommodationAllocation) (end_date : ℕ) (notes : Option String) :
    (AccommodationAllocation.saveNew st a).allocs = st.allocs ++ [a] ∧
    (a.is_active = true →
      (AccommodationAllocation.saveNew st a).status a.accommodation =
        AccommodationStatus.occupied) ∧
    (a.is_active = false →
      (AccommodationAllocation.saveNew st a).status = st.status) ∧
    (∀ r ∈ (AccommodationAllocation.end_allocation st self end_date notes).allocs,
      r.pk = self.pk → r.is_active = false ∧ r.end_date = some end_date) ∧
    ((∀ q ∈ st.allocs, q.accommodation = self.accommodation → q.is_active = true →
        q.pk = self.pk) →
      (AccommodationAllocation.end_allocation st self end_date notes).status
        self.accommodation = AccommodationStatus.available) := by
  have hal : (AccommodationAllocation.end_allocation st self end_date notes).allocs =
      st.allocs.map (endUpdateRow self end_date notes) := by
    unfold AccommodationAllocation.end_allocation
    dsimp only
    split <;> rfl
  refine ⟨?_, ?_, ?_, ?_, ?_⟩
  · by_cases h : a.is_active = true <;>
      simp [AccommodationAllocation.saveNew, markOccupied, h]
  · intro h
    simp [AccommodationAllocation.saveNew, markOccupied, h]
  · intro h
    simp [AccommodationAllocation.saveNew, h]
  · intro r hr hpk
    rw [hal] at hr
    rcases List.mem_map.mp hr with ⟨x, hx, heq⟩
    by_cases hxpk : (x.pk == self.pk) = true
    · rw [← heq]
      unfold endUpdateRow
      rw [if_pos hxpk]
      exact ⟨rfl, rfl⟩
    · rw [← heq] at hpk
      unfold endUpdateRow at hpk
      rw [if_neg hxpk] at hpk
      exact absurd (by simp [hpk]) hxpk
  · intro hlast
    have hany : (st.allocs.map (endUpdateRow self end_date notes)).any (fun q =>
        q.accommodation == self.accommodation && q.is_active &&
          !(q.pk == self.pk)) = false := by
      rw [List.any_eq_false]
      intro q hq
      rcases List.mem_map.mp hq with ⟨x, hx, heq⟩
      rw [← heq]
      by_cases hxpk : (x.pk == self.pk) = true
      · unfold endUpdateRow
        rw [if_pos hxpk]
        simp
      · unfold endUpdateRow
        rw [if_neg hxpk]
        intro hcontra
        simp only [Bool.and_eq_true, beq_iff_eq, Bool.not_eq_eq_eq_not,
          Bool.not_true, beq_eq_false_iff_ne] at hcontra
        exact hcontra.2 (hlast x hx hcontra.1.1 hcontra.1.2)
    unfold AccommodationAllocation.end_allocation
    dsimp only
    simp only [hany, Bool.false_eq_true, if_false, markAvailable]
    simp

/-- Witness for claim C3 (amended): ending the single active allocation of
accommodation 5 marks it available. -/
theorem allocation_ops_amended_witness :
    (∀ q ∈ oneAllocState.allocs, q.accommodation = 5 → q.is_active = true → q.pk = 1) ∧
    (AccommodationAllocation.end_allocation oneAllocState
      ⟨1, 5, true, 0, none, none⟩ 7 none).status 5 = AccommodationStatus.available :=
  ⟨by decide,
    (allocation_ops_amended oneAllocState ⟨2, 5, true, 0, none, none⟩
      ⟨1, 5, true, 0, none, none⟩ 7 none).2.2.2.2 (by decide)⟩

/-- If the injected exception hits position `idx + k` of the remaining
employee list (`k` within range), the loop reports the exception and has
persisted exactly the slips of the first `k` remaining employees. -/
theorem processLoop_fail (salaries : List SalaryRow) (end_date : ℕ) :
    ∀ (emps : List Employee) (k idx : ℕ) (total : ℚ) (slips : List SalarySlip),
      k < emps.length →
      (processLoop (some (idx + k)) idx salaries end_date emps total slips).1 = true ∧
      (processLoop (some (idx + k)) idx salaries end_date emps total slips).2.2 =
        slips ++ slipsFor salaries end_date (emps.take k)
  | [], k, idx, total, slips, hk => absurd hk (by simp)
  | e :: rest, 0, idx, total, slips, _ => by
    simp [processLoop, slipsFor]
  | e :: rest, k + 1, idx, total, slips, hk => by
    have hne : (some (idx + (k + 1)) == some idx) = false := by
      simp
    have hidx : idx + (k + 1) = (idx + 1) + k := by omega
    simp only [processLoop, hne, Bool.false_eq_true, if_false]
    cases hsal : getCurrentSalary salaries e.id end_date with
    | some sal =>
      have ih := processLoop_fail salaries end_date rest k (idx + 1)
        (total + sal.net_salary) (slips ++ [mkSlip e.id sal])
        (by simpa using Nat.lt_of_succ_lt_succ hk)
      rw [hidx]
      refine ⟨ih.1, ?_⟩
      rw [ih.2]
      simp [slipsFor, List.filterMap_cons, hsal]
    | none =>
      have ih := processLoop_fail salaries end_date rest k (idx + 1) total slips
        (by simpa using Nat.lt_of_succ_lt_succ hk)
      rw [hidx]
      refine ⟨ih.1, ?_⟩
      rw [ih.2]
      simp [slipsFor, List.filterMap_cons, hsal]

/-- Claim C6 counterexample: on a draft two-employee payroll, an exception
injected while processing the second employee is caught and the status is
restored to draft, but the run is *not* rolled back — the first employee's
salary slip and the updated `total_employees` persist. -/
theorem process_payroll_cex :
    payrollFixture.payroll.status = PayrollStatus.draft ∧
    (process_payroll (some 1) payrollFixture).1 = PayrollOutcome.reraised ∧
    (process_payroll (some 1) payrollFixture).2.payroll.status = PayrollStatus.draft ∧
    (process_payroll (some 1) payrollFixture).2.slips ≠ payrollFixture.slips ∧
    (process_payroll (some 1) payrollFixture).2.payroll.total_employees ≠
      payrollFixture.payroll.total_employees := by
  decide

/-- Claim C6 (amended): a non-draft payroll raises `ValueError` with the
whole state untouched; on a draft payroll an unexpected exception at
eligible employee `k` is caught, the status is restored to draft and the
exception re-raised, but the slips created before the failure and the
updated `total_employees` count persist (`total_amount` alone is left as
it was). -/
theorem process_payroll_amended (fail_at : Option ℕ) (db : PayrollDB) (k : ℕ) :
    (db.payroll.status ≠ PayrollStatus.draft →
      process_payroll fail_at db = (PayrollOutcome.valueError, db)) ∧
    (db.payroll.status = PayrollStatus.draft → fail_at = some k →
      k < (eligibleEmployees db.employees db.payroll.end_date).length →
      (process_payroll fail_at db).1 = PayrollOutcome.reraised ∧
      (process_payroll fail_at db).2.payroll.status = PayrollStatus.draft ∧
      (process_payroll fail_at db).2.payroll.total_amount = db.payroll.total_amount ∧
      (process_payroll fail_at db).2.payroll.total_employees =
        (eligibleEmployees db.employees db.payroll.end_date).length ∧
      (process_payroll fail_at db).2.slips =
        db.slips ++ slipsFor db.salaries db.payroll.end_date
          ((eligibleEmployees db.employees db.payroll.end_date).take k)) := by
  constructor
  · intro h
    simp [process_payroll, h]
  · intro hdraft hfail hk
    subst hfail
    have hloop := processLoop_fail db.salaries db.payroll.end_date
      (eligibleEmployees db.employees db.payroll.end_date) k 0 0 db.slips hk
    rw [Nat.zero_add] at hloop
    rcases hp : processLoop (some k) 0 db.salaries db.payroll.end_date
        (eligibleEmployees db.employees db.payroll.end_date) 0 db.slips with ⟨b, t, sl⟩
    rw [hp] at hloop
    obtain ⟨hb, hsl⟩ := hloop
    simp only at hb hsl
    subst hb
    refine ⟨?_, ?_, ?_, ?_, ?_⟩ <;>
      simp [process_payroll, hdraft, hp, hsl]

/-- Witness for claim C6 (amended) on the two-employee fixture with the
failure at eligible employee 1. -/
theorem process_payroll_amended_witness :
    payrollFixture.payroll.status = PayrollStatus.draft ∧
    1 < (eligibleEmployees payrollFixture.employees
          payrollFixture.payroll.end_date).length ∧
    (process_payroll (some 1) payrollFixture).2.slips =
      payrollFixture.slips ++
        slipsFor payrollFixture.salaries payrollFixture.payroll.end_date
          ((eligibleEmployees payrollFixture.employees
            payrollFixture.payroll.end_date).take 1) :=
  ⟨rfl, by decide,
    ((process_payroll_amended (some 1) payrollFixture 1).2 rfl rfl
      (by decide)).2.2.2.2⟩

/-- The haversine distance from a point to itself is zero. -/
theorem haversine_self (lat lon : ℝ) : haversineDistance lat lon lat lon = 0 := by
  unfold haversineDistance
  simp

/-- One ray-casting iteration never raises: it returns `inside` xor-ed with
the pure crossing test of the edge, because the unassigned-read branch is
only reachable for a non-horizontal edge, where `xinters` has just been
assigned. -/
theorem rayStep_ok (pt : ℚ × ℚ) (st : Bool × Option ℚ) (e : (ℚ × ℚ) × (ℚ × ℚ)) :
    ∃ xin, rayStep pt st e = Except.ok (Bool.xor st.1 (crossesEdge pt e), xin) := by
  unfold rayStep crossesEdge
  dsimp only
  by_cases h1 : pt.2 > min e.1.2 e.2.2
  case neg =>
    refine ⟨st.2, ?_⟩
    rw [if_neg h1]
    simp [h1]
  case pos =>
    rw [if_pos h1]
    by_cases h2 : pt.2 ≤ max e.1.2 e.2.2
    case neg =>
      refine ⟨st.2, ?_⟩
      rw [if_neg h2]
      simp [h1, h2]
    case pos =>
      rw [if_pos h2]
      by_cases h3 : pt.1 ≤ max e.1.1 e.2.1
      case neg =>
        refine ⟨st.2, ?_⟩
        rw [if_neg h3]
        simp [h1, h2, h3]
      case pos =>
        rw [if_pos h3]
        have h5 : e.1.2 ≠ e.2.2 := by
          intro h5
          rw [h5, min_self] at h1
          rw [h5, max_self] at h2
          exact absurd h2 (not_le.mpr h1)
        rw [if_pos h5]
        by_cases h4 : e.1.1 = e.2.1
        case pos =>
          refine ⟨some (xintersAt pt e.1 e.2), ?_⟩
          rw [if_pos h4]
          have hd4 : decide (e.1.1 = e.2.1) = true := decide_eq_true h4
          simp [h1, h2, h3, hd4]
        case neg =>
          refine ⟨some (xintersAt pt e.1 e.2), ?_⟩
          rw [if_neg h4]
          by_cases h6 : pt.1 ≤ xintersAt pt e.1 e.2 <;>
            simp [h1, h2, h3, h4, h6]

/-- Folding the ray-casting step over any edge list from any start state
never raises and accumulates exactly the parity of the crossing count. -/
theorem foldlM_rayStep (pt : ℚ × ℚ) :
    ∀ (es : List ((ℚ × ℚ) × (ℚ × ℚ))) (b : Bool) (xin : Option ℚ),
      ∃ xin', List.foldlM (rayStep pt) (b, xin) es =
        Except.ok (Bool.xor b (decide (Odd (es.countP (crossesEdge pt)))), xin')
  | [], b, xin =>
    ⟨xin, by
      show Except.ok (b, xin) = _
      simp [Nat.odd_iff]⟩
  | e :: es, b, xin => by
    obtain ⟨x1, h1⟩ := rayStep_ok pt (b, xin) e
    obtain ⟨x2, h2⟩ := foldlM_rayStep pt es (Bool.xor b (crossesEdge pt e)) x1
    refine ⟨x2, ?_⟩
    rw [List.foldlM_cons, h1]
    show List.foldlM (rayStep pt) (Bool.xor b (crossesEdge pt e), x1) es = _
    rw [h2]
    congr 1
    rw [List.countP_cons]
    rcases Nat.even_or_odd (es.countP (crossesEdge pt)) with hn | hn
    · have ho : Odd (es.countP (crossesEdge pt) + 1) := hn.add_one
      have hno : ¬Odd (es.countP (crossesEdge pt)) := Nat.not_odd_iff_even.mpr hn
      cases hc : crossesEdge pt e <;> cases b <;> simp [hc, ho, hno]
    · have hne : ¬Odd (es.countP (crossesEdge pt) + 1) :=
        Nat.not_odd_iff_even.mpr hn.add_one
      cases hc : crossesEdge pt e <;> cases b <;> simp [hc, hn, hne]

/-- The ray-casting computation on a non-empty polygon returns, without
raising, whether the crossing count is odd. -/
theorem rayCasting_eq (polygon : List (ℚ × ℚ)) (h : polygon ≠ []) (pt : ℚ × ℚ) :
    rayCasting polygon pt = Except.ok (decide (Odd (crossingCount polygon pt))) := by
  obtain ⟨p0, rest, rfl⟩ : ∃ p0 rest, polygon = p0 :: rest := by
    cases polygon with
    | nil => exact absurd rfl h
    | cons a l => exact ⟨a, l, rfl⟩
  obtain ⟨xin', hfold⟩ := foldlM_rayStep pt (edgeList (p0 :: rest)) false none
  unfold rayCasting
  rw [hfold]
  simp [crossingCount, Except.map, Bool.false_xor]

/-- Claim C10: on an active polygon geofence with non-empty coordinates,
`contains_point` is total and returns a boolean: the loop examines exactly
`n + 1` edges and the ray-casting computation never reaches the
read-before-assignment branch. -/
theorem ray_casting_total (g : GeofenceArea) (lat lon : ℚ)
    (h1 : g.is_active = true) (h2 : g.geofence_type = GeofenceType.polygon)
    (h3 : g.coordinates ≠ []) :
    (edgeList g.coordinates).length = g.coordinates.length + 1 ∧
    ∃ b : Bool, g.contains_point lat lon = Except.ok b ∧
      rayCasting g.coordinates (lat, lon) = Except.ok b := by
  obtain ⟨p0, rest, hpoly⟩ : ∃ p0 rest, g.coordinates = p0 :: rest := by
    cases hc : g.coordinates with
    | nil => exact absurd hc h3
    | cons a l => exact ⟨a, l, rfl⟩
  have hie : g.coordinates.isEmpty = false := by
    rw [hpoly]
    rfl
  constructor
  · rw [hpoly]
    simp [edgeList]
  · refine ⟨decide (Odd (crossingCount g.coordinates (lat, lon))), ?_,
      rayCasting_eq _ h3 _⟩
    simp only [GeofenceArea.contains_point, h1, h2, hie, Bool.true_eq_false,
      if_false, Bool.false_eq_true]
    exact rayCasting_eq _ h3 _

/-- Witness for claim C10: the unit-square polygon fence evaluated at its
centre. -/
theorem ray_casting_total_witness :
    squareFence.coordinates ≠ [] ∧
    ((edgeList squareFence.coordinates).length = squareFence.coordinates.length + 1 ∧
      ∃ b : Bool, squareFence.contains_point 1 1 = Except.ok b ∧
        rayCasting squareFence.coordinates (1, 1) = Except.ok b) :=
  ⟨by simp [squareFence],
    ray_casting_total squareFence 1 1 rfl rfl (by simp [squareFence])⟩

/-- Claim C1 counterexample: an active circle geofence whose three circle
columns are all set (`center_latitude = 0` on the equator, radius 1000 m)
rejects its own centre — a point at haversine distance 0 ≤ 1000 — because
the code's truthiness guard `if not (self.center_latitude and ...)`
treats the zero coordinate as unset. -/
theorem contains_point_zero_center_cex :
    equatorFence.is_active = true ∧
    equatorFence.geofence_type = GeofenceType.circle ∧
    equatorFence.center_latitude = some 0 ∧
    equatorFence.center_longitude = some 10 ∧
    equatorFence.radius = some 1000 ∧
    haversineDistance ((0 : ℚ) : ℝ) ((10 : ℚ) : ℝ) ((0 : ℚ) : ℝ) ((10 : ℚ) : ℝ) = 0 ∧
    ((0 : ℝ) ≤ ((1000 : ℕ) : ℝ)) ∧
    equatorFence.contains_point 0 10 = Except.ok false := by
  refine ⟨rfl, rfl, rfl, rfl, rfl, haversine_self _ _, by norm_num, ?_⟩
  rfl

/-- Claim C1 (amended): an inactive geofence always yields false; for an
active circle geofence whose `center_latitude`, `center_longitude` and
`radius` are set *to truthy (nonzero) values*, `contains_point` is true
iff the haversine distance to the centre is at most the radius; for an
active polygon geofence with non-empty coordinates it is true iff the
ray-casting crossing count is odd. -/
theorem contains_point_amended (g : GeofenceArea) (lat lon : ℚ) :
    (g.is_active = false → g.contains_point lat lon = Except.ok false) ∧
    (g.is_active = true → g.geofence_type = GeofenceType.circle →
      ∀ clat clon r, g.center_latitude = some clat → clat ≠ 0 →
        g.center_longitude = some clon → clon ≠ 0 →
        g.radius = some r → r ≠ 0 →
        (g.contains_point lat lon = Except.ok true ↔
          haversineDistance (lat : ℝ) (lon : ℝ) (clat : ℝ) (clon : ℝ) ≤ (r : ℝ))) ∧
    (g.is_active = true → g.geofence_type = GeofenceType.polygon →
      g.coordinates ≠ [] →
      (g.contains_point lat lon = Except.ok true ↔
        Odd (crossingCount g.coordinates (lat, lon)))) := by
  refine ⟨?_, ?_, ?_⟩
  · intro h
    simp [GeofenceArea.contains_point, h]
  · intro ha ht clat clon r hclat hclat0 hclon hclon0 hr hr0
    have htr : (truthyQ g.center_latitude && truthyQ g.center_longitude &&
        truthyN g.radius) = true := by
      simp [truthyQ, truthyN, hclat, hclon, hr, hclat0, hclon0, hr0]
    simp only [GeofenceArea.contains_point, ha, ht, htr, Bool.true_eq_false,
      if_false, Bool.not_true, hclat, hclon, hr, Option.getD_some]
    by_cases hd : haversineDistance (lat : ℝ) (lon : ℝ) (clat : ℝ) (clon : ℝ) ≤ (r : ℝ) <;>
      simp [hd, truthyQ, truthyN, hclat0, hclon0, hr0]
  · intro ha ht hne
    have hie : g.coordinates.isEmpty = false := by
      cases hc : g.coordinates with
      | nil => exact absurd hc hne
      | cons a l => rfl
    simp only [GeofenceArea.contains_point, ha, ht, hie, Bool.true_eq_false,
      if_false, Bool.false_eq_true]
    rw [rayCasting_eq _ hne]
    simp

/-- Witness for claim C1 (amended): the circle fence contains its own
centre (distance 0 ≤ 5) and the square fence contains its centre (one
crossing). -/
theorem contains_point_amended_witness :
    circleFence.contains_point 1 2 = Except.ok true ∧
    squareFence.contains_point 1 1 = Except.ok true := by
  constructor
  · refine ((contains_point_amended circleFence 1 2).2.1 rfl rfl 1 2 5 rfl
      (by norm_num) rfl (by norm_num) rfl (by norm_num)).mpr ?_
    rw [haversine_self]
    norm_num
  · refine ((contains_point_amended squareFence 1 1).2.2 rfl rfl
      (by simp [squareFence])).mpr ?_
    decide

/-- The end-date tail of `calculate_next_run` behaves as the spec
describes for any candidate datetime. -/
theorem applyEndCheck_matches (s : ReportSchedule) (base : DateTime) :
    nextRunMatches s base (applyEndCheck s base) := by
  constructor
  · intro ed hed hlt
    simp [applyEndCheck, hed, hlt]
  · intro hno
    cases hed : s.end_date with
    | none => simp [applyEndCheck, hed]
    | some ed => simp [applyEndCheck, hed, hno ed hed]

/-- `date.weekday()` is non-negative. -/
theorem weekday_nonneg (d : Date) : 0 ≤ weekday d :=
  Int.emod_nonneg _ (by norm_num)

/-- `date.weekday()` is below 7. -/
theorem weekday_lt (d : Date) : weekday d < 7 :=
  Int.emod_lt_of_pos _ (by norm_num)

/-- Claim C5: for a schedule whose `last_run` is set, `calculate_next_run`
computes the claimed next run per frequency — daily adds one day at
`time_of_day`; weekly advances to the next occurrence of `day_of_week`
strictly after the last run's weekday; monthly (quarterly) moves one
(three) months after `last_run` on day `min(day_of_month or last_run.day,
last day of that month)`; yearly moves to `last_run`'s year plus one;
`once` clears `next_run` and deactivates — and whenever the computed date
falls after `end_date` the schedule is deactivated with no next run. -/
theorem calculate_next_run_spec (now : DateTime) (s : ReportSchedule) (lr : DateTime)
    (hlr : s.last_run = some lr) (hdw : s.day_of_week ≤ 6)
    (hm1 : 1 ≤ lr.month) (hm2 : lr.month ≤ 12) :
    (s.frequency = ReportFrequency.once →
      (calculate_next_run now s).next_run = none ∧
      (calculate_next_run now s).is_active = false) ∧
    (s.frequency = ReportFrequency.daily →
      nextRunMatches s (combine (addDays lr.date 1) s.time_of_day)
        (calculate_next_run now s)) ∧
    (s.frequency = ReportFrequency.weekly →
      ∃ k : ℕ, 1 ≤ k ∧ k ≤ 7 ∧
        (weekday lr.date + (k : ℤ)) % 7 = (s.day_of_week : ℤ) ∧
        nextRunMatches s (combine (addDays lr.date k) s.time_of_day)
          (calculate_next_run now s)) ∧
    (s.frequency = ReportFrequency.monthly →
      ∃ (y : ℤ) (m : ℕ), 1 ≤ m ∧ m ≤ 12 ∧
        y * 12 + (m : ℤ) = lr.year * 12 + (lr.month : ℤ) + 1 ∧
        nextRunMatches s
          ⟨y, m, min (pyOr s.day_of_month lr.day) (monthrange y m),
            s.time_of_day.hour, s.time_of_day.minute⟩
          (calculate_next_run now s)) ∧
    (s.frequency = ReportFrequency.quarterly →
      ∃ (y : ℤ) (m : ℕ), 1 ≤ m ∧ m ≤ 12 ∧
        y * 12 + (m : ℤ) = lr.year * 12 + (lr.month : ℤ) + 3 ∧
        nextRunMatches s
          ⟨y, m, min (pyOr s.day_of_month lr.day) (monthrange y m),
            s.time_of_day.hour, s.time_of_day.minute⟩
          (calculate_next_run now s)) ∧
    (s.frequency = ReportFrequency.yearly →
      nextRunMatches s
        ⟨lr.year + 1, pyOr s.month_of_year lr.month,
          min (pyOr s.day_of_month lr.day)
            (monthrange (lr.year + 1) (pyOr s.month_of_year lr.month)),
          s.time_of_day.hour, s.time_of_day.minute⟩
        (calculate_next_run now s)) := by
  have hcalc : calculate_next_run now s = calcFromLastRun s lr := by
    unfold calculate_next_run
    rw [hlr]
  refine ⟨?_, ?_, ?_, ?_, ?_, ?_⟩
  · intro hf
    rw [hcalc]
    unfold calcFromLastRun
    rw [if_pos hf]
    exact ⟨rfl, rfl⟩
  · intro hf
    rw [hcalc]
    unfold calcFromLastRun
    rw [if_neg (by simp [hf])]
    have hb : baseDatetime s lr = combine (addDays lr.date 1) s.time_of_day := by
      unfold baseDatetime
      rw [hf]
    rw [← hb]
    exact applyEndCheck_matches s _
  · intro hf
    rw [hcalc]
    unfold calcFromLastRun
    rw [if_neg (by simp [hf])]
    have h0 : 0 ≤ weekday lr.date := weekday_nonneg _
    have h7 : weekday lr.date < 7 := weekday_lt _
    by_cases hle : (s.day_of_week : ℤ) - weekday lr.date ≤ 0
    · refine ⟨((s.day_of_week : ℤ) - weekday lr.date + 7).toNat, by omega, by omega,
        by omega, ?_⟩
      have hb : baseDatetime s lr =
          combine (addDays lr.date ((s.day_of_week : ℤ) - weekday lr.date + 7).toNat)
            s.time_of_day := by
        unfold baseDatetime
        rw [hf]
        dsimp only
        rw [if_pos hle]
      rw [← hb]
      exact applyEndCheck_matches s _
    · refine ⟨((s.day_of_week : ℤ) - weekday lr.date).toNat, by omega, by omega,
        by omega, ?_⟩
      have hb : baseDatetime s lr =
          combine (addDays lr.date ((s.day_of_week : ℤ) - weekday lr.date).toNat)
            s.time_of_day := by
        unfold baseDatetime
        rw [hf]
        dsimp only
        rw [if_neg hle]
      rw [← hb]
      exact applyEndCheck_matches s _
  · intro hf
    rw [hcalc]
    unfold calcFromLastRun
    rw [if_neg (by simp [hf])]
    by_cases hm : 12 < lr.month + 1
    · refine ⟨lr.year + 1, 1, by omega, by omega, by omega, ?_⟩
      have hb : baseDatetime s lr =
          ⟨lr.year + 1, 1, min (pyOr s.day_of_month lr.day) (monthrange (lr.year + 1) 1),
            s.time_of_day.hour, s.time_of_day.minute⟩ := by
        unfold baseDatetime
        rw [hf]
        dsimp only
        rw [if_pos hm, if_pos hm]
      rw [← hb]
      exact applyEndCheck_matches s _
    · refine ⟨lr.year, lr.month + 1, by omega, by omega, by omega, ?_⟩
      have hb : baseDatetime s lr =
          ⟨lr.year, lr.month + 1,
            min (pyOr s.day_of_month lr.day) (monthrange lr.year (lr.month + 1)),
            s.time_of_day.hour, s.time_of_day.minute⟩ := by
        unfold baseDatetime
        rw [hf]
        dsimp only
        rw [if_neg hm, if_neg hm]
      rw [← hb]
      exact applyEndCheck_matches s _
  · intro hf
    rw [hcalc]
    unfold calcFromLastRun
    rw [if_neg (by simp [hf])]
    by_cases hm : 12 < lr.month + 3
    · refine ⟨lr.year + 1, lr.month + 3 - 12, by omega, by omega, by omega, ?_⟩
      have hb : baseDatetime s lr =
          ⟨lr.year + 1, lr.month + 3 - 12,
            min (pyOr s.day_of_month lr.day)
              (monthrange (lr.year + 1) (lr.month + 3 - 12)),
            s.time_of_day.hour, s.time_of_day.minute⟩ := by
        unfold baseDatetime
        rw [hf]
        dsimp only
        rw [if_pos hm, if_pos hm]
      rw [← hb]
      exact applyEndCheck_matches s _
    · refine ⟨lr.year, lr.month + 3, by omega, by omega, by omega, ?_⟩
      have hb : baseDatetime s lr =
          ⟨lr.year, lr.month + 3,
            min (pyOr s.day_of_month lr.day) (monthrange lr.year (lr.month + 3)),
            s.time_of_day.hour, s.time_of_day.minute⟩ := by
        unfold baseDatetime
        rw [hf]
        dsimp only
        rw [if_neg hm, if_neg hm]
      rw [← hb]
      exact applyEndCheck_matches s _
  · intro hf
    rw [hcalc]
    unfold calcFromLastRun
    rw [if_neg (by simp [hf])]
    have hb : baseDatetime s lr =
        ⟨lr.year + 1, pyOr s.month_of_year lr.month,
          min (pyOr s.day_of_month lr.day)
            (monthrange (lr.year + 1) (pyOr s.month_of_year lr.month)),
          s.time_of_day.hour, s.time_of_day.minute⟩ := by
      unfold baseDatetime
      rw [hf]
    rw [← hb]
    exact applyEndCheck_matches s _

/-- Witness for claim C5: the daily fixture whose last run was
2026-01-15 10:00 gets 2026-01-16 09:00 as next run and stays active. -/
theorem calculate_next_run_spec_witness :
    dailySchedule.last_run = some ⟨2026, 1, 15, 10, 0⟩ ∧
    (calculate_next_run ⟨2026, 1, 1, 0, 0⟩ dailySchedule).next_run =
      some ⟨2026, 1, 16, 9, 0⟩ ∧
    (calculate_next_run ⟨2026, 1, 1, 0, 0⟩ dailySchedule).is_active = true := by
  have h := (calculate_next_run_spec ⟨2026, 1, 1, 0, 0⟩ dailySchedule
    ⟨2026, 1, 15, 10, 0⟩ rfl (by decide) (by decide) (by decide)).2.1 rfl
  have h2 := h.2 (fun ed hed => by simp [dailySchedule] at hed)
  refine ⟨rfl, ?_, ?_⟩
  · rw [h2.1]
    rfl
  · rw [h2.2]
    rfl

end HR
